import Mathlib

/-!
Shallow embedding of the pyroscope-nodejs profiling agent (src/index.ts).

We model, faithfully to the TypeScript source:
  - the module-level `config` record and the synchronous effect of `init`;
  - the tag model (`tagListToLabels` and the URL tag fragment built inside
    `uploadProfile`);
  - the upload pipeline (`uploadProfile` with `handleError` as the
    rejection handler installed by `.catch`), with the profile encoder and
    the HTTP transport as opaque parameters;
  - the heap profiling session state machine
    (`startHeapProfiling` / `stopHeapProfiling`);
  - an event-trace operational model of the CPU profiling loop
    (`startCpuProfiling`, `profilingRound`, `stopCpuProfiling`) driven by
    scheduler commands of the single-threaded event loop.

JS details that matter here: a template literal interpolating an array
joins its elements with commas; `x || d` falls back to `d` when `x` is
absent or the empty string; `init` assigns `config.server`,
`config.sourceMapPath` and `config.tags` but never `config.name`.
-/

namespace Pyroscope

/-- A tag mapping, in JS object enumeration order. -/
abbrev TagList := List (String × String)

/-- Constant `INTERVAL` from src/index.ts (milliseconds). -/
def INTERVAL : Nat := 10000

/-- Constant `SAMPLERATE` from src/index.ts. -/
def SAMPLERATE : Nat := 100

/-- Constant `DEFAULT_SERVER` from src/index.ts. -/
def DEFAULT_SERVER : String := "http://localhost:4040"

/-- The module-level `config` record (`PyroscopeConfig`). The opaque
source-mapper handle `sm` is modelled as an optional unit. -/
structure PyroscopeConfig where
  server : String
  name : String
  sourceMapPath : Option (List String)
  autoStart : Bool
  sm : Option Unit
  tags : TagList
  deriving Repr, DecidableEq

/-- The initial value of the module-level `config`. -/
def initialConfig : PyroscopeConfig :=
  { server := DEFAULT_SERVER, autoStart := true, name := "nodejs",
    sourceMapPath := none, sm := none, tags := [] }

/-- The configuration argument accepted by `init`. `server = none`
models a runtime-absent (undefined) field, so that the JS truthiness
test `c.server || DEFAULT_SERVER` can be modelled on both the absent
and the empty-string case. -/
structure InitArg where
  server : Option String
  name : String
  sourceMapPath : Option (List String)
  autoStart : Bool
  tags : TagList
  deriving Repr, DecidableEq

/-- JS `c.server || DEFAULT_SERVER`: an absent or empty string is falsy. -/
def orDefault (s : Option String) : String :=
  match s with
  | none => DEFAULT_SERVER
  | some v => if v = "" then DEFAULT_SERVER else v

/-- Synchronous effect of `init` on the global `config`:
`config.server = c.server || DEFAULT_SERVER`,
`config.sourceMapPath = c.sourceMapPath`, `config.tags = c.tags`.
`config.name` and `config.sm` are not assigned here (the source-mapper
assignment is a fire-and-forget async continuation). -/
def init (c : InitArg) (g : PyroscopeConfig) : PyroscopeConfig :=
  { g with
    server := orDefault c.server,
    sourceMapPath := c.sourceMapPath,
    tags := c.tags }

/-- The strings `k=v` built in `uploadProfile` by
`Object.keys(config.tags).map(t => ...)`. -/
def tagListStrings (tags : TagList) : List String :=
  tags.map fun kv => kv.1 ++ "=" ++ kv.2

/-- The tag fragment of the upload URL: the template literal interpolates
the `k=v` array (joined with commas) between two literal braces. -/
def tagFragment (tags : TagList) : String :=
  "\x7b" ++ String.intercalate "," (tagListStrings tags) ++ "\x7d"

/-- A profile label record, as produced by `Label.create` with fields
`key` and `str`. -/
structure Label where
  key : String
  str : String
  deriving Repr, DecidableEq

/-- Function `tagListToLabels` from src/index.ts. -/
def tagListToLabels (tags : TagList) : List Label :=
  tags.map fun kv => { key := kv.1, str := kv.2 }

/-- The URL template in `uploadProfile`. -/
def uploadUrl (g : PyroscopeConfig) : String :=
  g.server ++ "/ingest?name=" ++ g.name ++ tagFragment g.tags ++
    "&sampleRate=" ++ toString SAMPLERATE

/-- The parts of an axios error inspected by `handleError`:
`error.response` (carrying its `data`), whether `error.request` is
present, and `error.message`. -/
structure AxiosError where
  response : Option String
  request : Bool
  message : String
  deriving Repr, DecidableEq

/-- Settled state of a JS promise: resolved with a value, or rejected
with an axios error. -/
inductive PromiseResult (α : Type) where
  | resolved : α → PromiseResult α
  | rejected : AxiosError → PromiseResult α
  deriving Repr, DecidableEq

/-- Promise combinator `p.catch(h)` for a handler that always returns normally. -/
def pcatch {α : Type} (p : PromiseResult α) (h : AxiosError → α) :
    PromiseResult α :=
  match p with
  | PromiseResult.resolved a => PromiseResult.resolved a
  | PromiseResult.rejected e => PromiseResult.resolved (h e)

/-- Promise combinator `p.then(f)` for a callback that always returns normally. -/
def pmap {α β : Type} (f : α → β) (p : PromiseResult α) : PromiseResult β :=
  match p with
  | PromiseResult.resolved a => PromiseResult.resolved (f a)
  | PromiseResult.rejected e => PromiseResult.rejected e

/-- One log line; the constructor records which of the three branches of
`handleError` produced it. -/
inductive LogLine where
  | receivedError : String → LogLine
  | noResponse : String → LogLine
  | setupError : String → LogLine
  deriving Repr, DecidableEq

/-- Function `handleError` from src/index.ts, returning the log lines it emits:
a truthy `error.response` logs the response data; otherwise a truthy
`error.request` logs the no-response message; otherwise the setup-error
message is logged. It never throws and never retries. -/
def handleError (e : AxiosError) : List LogLine :=
  match e.response with
  | some d => [LogLine.receivedError d]
  | none =>
    if e.request then [LogLine.noResponse e.message]
    else [LogLine.setupError e.message]

/-- The POST request `uploadProfile` issues: the target URL and the
encoded profile bytes placed in the multipart form body. -/
structure UploadRequest where
  url : String
  body : List Nat
  deriving Repr, DecidableEq

/-- The single request built by `uploadProfile` for a profile `p`:
`buf = await pprof.encode(profile)` goes into the form body unchanged,
and the URL comes from the global config. -/
def mkUploadRequest {P : Type} (encode : P → List Nat) (g : PyroscopeConfig)
    (p : P) : UploadRequest :=
  { url := uploadUrl g, body := encode p }

/-- Function `uploadProfile`: encode the profile, build the form and URL, issue
the POST through the transport `net`, and attach `.catch(handleError)`.
The first component is the one request issued; the second is the settled
state of the promise `uploadProfile` returns, carrying the log lines
produced when a network error was handled. -/
def uploadProfile {P : Type} (encode : P → List Nat) (g : PyroscopeConfig)
    (net : UploadRequest → PromiseResult Unit) (p : P) :
    UploadRequest × PromiseResult (List LogLine) :=
  let req := mkUploadRequest encode g p
  (req, pcatch (pmap (fun _ => ([] : List LogLine)) (net req)) handleError)

/-- State of the heap profiling session, with instrumentation needed to
state idempotence: the module-level `heapProfilingTimer` handle, the
list of live interval timers, and the number of `pprof.heap.start`
calls made so far. -/
structure HeapState where
  heapProfilingTimer : Option Nat
  activeTimers : List Nat
  samplerStarts : Nat
  nextHandle : Nat
  deriving Repr, DecidableEq

/-- Function `startHeapProfiling`: first `if (heapProfilingTimer) return false` (the
JS return value `false` is `some false`); otherwise start the heap
sampler and install a recurring interval timer (JS returns `undefined`,
modelled `none`). The `tags` parameter mirrors the source parameter,
which is never read. -/
def startHeapProfiling (tags : TagList) (s : HeapState) :
    HeapState × Option Bool :=
  match s.heapProfilingTimer with
  | some _ => (s, some false)
  | none =>
    ({ heapProfilingTimer := some s.nextHandle,
       activeTimers := s.activeTimers ++ [s.nextHandle],
       samplerStarts := s.samplerStarts + 1,
       nextHandle := s.nextHandle + 1 }, none)

/-- Function `stopHeapProfiling`: when a timer handle exists, clear the interval
and reset the handle; otherwise do nothing. -/
def stopHeapProfiling (s : HeapState) : HeapState :=
  match s.heapProfilingTimer with
  | some h =>
    { s with heapProfilingTimer := none,
             activeTimers := s.activeTimers.filter (fun t => t ≠ h) }
  | none => s

/-- Observable events of the CPU profiling loop, tagged with the round
number: a round's capture starting (`pprof.time.profile(...)` invoked),
the capture's promise resolving, `setImmediate(profilingRound)` being
queued for the next round, `uploadProfile` being invoked for the round's
profile, and `stopCpuProfiling` being called. -/
inductive Event where
  | captureStart : Nat → Event
  | captureEnd : Nat → Event
  | scheduleNext : Nat → Event
  | uploadAttempt : Nat → Event
  | stopCalled : Event
  deriving Repr, DecidableEq

/-- State of the CPU profiling loop: the `isCpuProfilingRunning` flag,
the round whose capture is currently in flight, whether a
`setImmediate(profilingRound)` callback is queued on the event loop, the
number of the next round to start, and the event trace so far (oldest
first). -/
structure CpuState where
  isCpuProfilingRunning : Bool
  inFlight : Option Nat
  pendingImmediate : Bool
  nextRound : Nat
  trace : List Event
  deriving Repr, DecidableEq

/-- Function `profilingRound` up to its first suspension point: it starts a
capture (which will take the capture duration to resolve) and returns to
the event loop. -/
def roundStart (s : CpuState) : CpuState :=
  { s with
    inFlight := some s.nextRound,
    nextRound := s.nextRound + 1,
    trace := s.trace ++ [Event.captureStart s.nextRound] }

/-- Function `startCpuProfiling`: set `isCpuProfilingRunning` and invoke
`profilingRound()` immediately. The `tags` parameter mirrors the source
parameter, which is never read. -/
def startCpuProfiling (tags : TagList) (s : CpuState) : CpuState :=
  roundStart { s with isCpuProfilingRunning := true }

/-- Scheduler commands of the single-threaded event loop:
`resolveCapture ok` resolves the in-flight capture promise and runs the
`.then` continuation of `profilingRound` (check the flag, queue
`setImmediate(profilingRound)` if still running, invoke the upload whose
eventual outcome is `ok`); `runImmediate` runs a queued `setImmediate`
callback; `stopCpu` is the host calling `stopCpuProfiling`. -/
inductive Cmd where
  | resolveCapture : Bool → Cmd
  | runImmediate : Cmd
  | stopCpu : Cmd
  deriving Repr, DecidableEq

/-- One step of the event loop. The `.then` continuation never consults
the upload outcome, so `resolveCapture` ignores its argument; commands
whose trigger is absent (no capture in flight, no queued callback) do
nothing. -/
def step (s : CpuState) : Cmd → CpuState
  | Cmd.resolveCapture _ok =>
    match s.inFlight with
    | none => s
    | some n =>
      if s.isCpuProfilingRunning then
        { s with
          inFlight := none,
          pendingImmediate := true,
          trace := s.trace ++
            [Event.captureEnd n, Event.scheduleNext n, Event.uploadAttempt n] }
      else
        { s with
          inFlight := none,
          trace := s.trace ++ [Event.captureEnd n, Event.uploadAttempt n] }
  | Cmd.runImmediate =>
    if s.pendingImmediate then roundStart { s with pendingImmediate := false }
    else s
  | Cmd.stopCpu =>
    { s with isCpuProfilingRunning := false,
             trace := s.trace ++ [Event.stopCalled] }

/-- Run a list of scheduler commands in order. -/
def run (s : CpuState) : List Cmd → CpuState
  | [] => s
  | c :: cs => run (step s c) cs

/-- The loop state at module load: flag down, nothing in flight. -/
def initialCpuState : CpuState :=
  { isCpuProfilingRunning := false, inFlight := none,
    pendingImmediate := false, nextRound := 0, trace := [] }

/-- Sequentiality of a trace: every occurrence of `captureStart (n+1)`
is strictly preceded by an occurrence of `captureEnd n`. -/
def seqOrdered (tr : List Event) : Prop :=
  ∀ (i n : Nat), tr[i]? = some (Event.captureStart (n + 1)) →
    ∃ j : Nat, j < i ∧ tr[j]? = some (Event.captureEnd n)

/-- Invariant of the CPU loop: the trace is sequential; a queued
`setImmediate` callback exists only with no capture in flight and with
the previous round's capture already resolved; an in-flight capture is
always the latest round started. -/
def CpuInv (s : CpuState) : Prop :=
  seqOrdered s.trace ∧
  (s.pendingImmediate = true →
    s.inFlight = none ∧ 1 ≤ s.nextRound ∧
    ∃ j : Nat, s.trace[j]? = some (Event.captureEnd (s.nextRound - 1))) ∧
  (∀ n, s.inFlight = some n → n + 1 = s.nextRound)

/-- A quiescent loop: flag down, no queued callback, nothing in flight.
Once quiescent, the loop can never start another capture. -/
def Quiescent (s : CpuState) : Prop :=
  s.isCpuProfilingRunning = false ∧ s.pendingImmediate = false ∧
    s.inFlight = none

/-- The configuration of the end-to-end scenario: server
http://example:4040, name svc, one tag env=prod, autoStart false. -/
def scenarioArg : InitArg :=
  { server := some "http://example:4040", name := "svc",
    sourceMapPath := none, autoStart := false, tags := [("env", "prod")] }

/-- The global config after running `init` with `scenarioArg` from the
module-load state. -/
def scenarioConfig : PyroscopeConfig :=
  init scenarioArg initialConfig

theorem exists_getElem?_of_mem {α : Type} {l : List α} {a : α} (h : a ∈ l) :
    ∃ j : Nat, l[j]? = some a := by
  obtain ⟨i, hlt, rfl⟩ := List.mem_iff_getElem.mp h
  exact ⟨i, List.getElem?_eq_getElem hlt⟩

theorem getElem?_append_of_some {α : Type} {l ext : List α} {j : Nat} {a : α}
    (h : l[j]? = some a) : (l ++ ext)[j]? = some a := by
  rw [List.getElem?_append_left (List.getElem?_eq_some.mp h).1]
  exact h

/-- Appending events that either are not capture starts, or whose
predecessor round has already resolved in `tr`, preserves
sequentiality. -/
theorem seqOrdered_append (tr ext : List Event) (h : seqOrdered tr)
    (hext : ∀ n, Event.captureStart (n + 1) ∈ ext →
      ∃ j : Nat, tr[j]? = some (Event.captureEnd n)) :
    seqOrdered (tr ++ ext) := by
  unfold seqOrdered at h ⊢
  intro i n hi
  by_cases hlt : i < tr.length
  · rw [List.getElem?_append_left hlt] at hi
    obtain ⟨j, hji, hj⟩ := h i n hi
    exact ⟨j, hji, getElem?_append_of_some hj⟩
  · push_neg at hlt
    rw [List.getElem?_append_right hlt] at hi
    have hmem : Event.captureStart (n + 1) ∈ ext := by
      obtain ⟨hl, heq⟩ := List.getElem?_eq_some.mp hi
      exact heq ▸ List.getElem_mem hl
    obtain ⟨j, hj⟩ := hext n hmem
    have hjlt : j < tr.length := (List.getElem?_eq_some.mp hj).1
    exact ⟨j, lt_of_lt_of_le hjlt hlt, getElem?_append_of_some hj⟩

/-- Every event-loop step preserves the CPU-loop invariant. -/
theorem cpuInv_step (s : CpuState) (c : Cmd) (h : CpuInv s) :
    CpuInv (step s c) := by
  obtain ⟨hord, hpend, hflight⟩ := h
  cases c with
  | resolveCapture ok =>
    cases hf : s.inFlight with
    | none =>
      simp only [step, hf]
      exact ⟨hord, hpend, hflight⟩
    | some n =>
      have hnr : n + 1 = s.nextRound := hflight n hf
      have hge : 1 ≤ s.nextRound := by omega
      by_cases hrun : s.isCpuProfilingRunning
      · simp only [step, hf, hrun, if_true]
        refine ⟨?_, ?_, ?_⟩
        · apply seqOrdered_append _ _ hord
          intro m hm
          simp at hm
        · intro _
          dsimp only
          refine ⟨rfl, hge, s.trace.length, ?_⟩
          rw [List.getElem?_append_right le_rfl]
          have hsub : s.nextRound - 1 = n := by omega
          simp [Nat.sub_self, hsub]
        · intro m hm
          simp at hm
      · simp only [step, hf, hrun, if_false]
        refine ⟨?_, ?_, ?_⟩
        · apply seqOrdered_append _ _ hord
          intro m hm
          simp at hm
        · intro hp
          have := (hpend hp).1
          rw [this] at hf
          simp at hf
        · intro m hm
          simp at hm
  | runImmediate =>
    by_cases hp : s.pendingImmediate
    · obtain ⟨hif, hge, j, hj⟩ := hpend hp
      simp only [step, hp, if_true, roundStart]
      refine ⟨?_, ?_, ?_⟩
      · dsimp only
        apply seqOrdered_append _ _ hord
        intro m hm
        simp at hm
        refine ⟨j, ?_⟩
        have hm2 : m = s.nextRound - 1 := by omega
        rw [hm2]
        exact hj
      · intro hfalse
        simp at hfalse
      · intro m hm
        dsimp only at hm ⊢
        simp at hm
        omega
    · simp only [step, hp, if_false]
      exact ⟨hord, hpend, hflight⟩
  | stopCpu =>
    simp only [step]
    refine ⟨?_, ?_, ?_⟩
    · apply seqOrdered_append _ _ hord
      intro m hm
      simp at hm
    · intro hp
      dsimp only at hp
      obtain ⟨hif, hge, j, hj⟩ := hpend hp
      exact ⟨hif, hge, j, getElem?_append_of_some hj⟩
    · intro m hm
      dsimp only at hm
      exact hflight m hm

/-- The CPU-loop invariant is preserved by any command schedule. -/
theorem cpuInv_run (s : CpuState) (cmds : List Cmd) (h : CpuInv s) :
    CpuInv (run s cmds) := by
  induction cmds generalizing s with
  | nil => exact h
  | cons c cs ih => exact ih (step s c) (cpuInv_step s c h)

/-- Starting the loop from the module-load state establishes the
invariant. -/
theorem cpuInv_start (tags : TagList) :
    CpuInv (startCpuProfiling tags initialCpuState) := by
  show CpuInv { isCpuProfilingRunning := true, inFlight := some 0,
                pendingImmediate := false, nextRound := 1,
                trace := [Event.captureStart 0] }
  unfold CpuInv seqOrdered
  refine ⟨?_, ?_, ?_⟩
  · intro i n hi
    match i with
    | 0 =>
      simp only [List.getElem?_cons_zero, Option.some.injEq,
        Event.captureStart.injEq] at hi
      omega
    | j + 1 =>
      simp at hi
  · intro hp
    simp at hp
  · intro m hm
    simp only [Option.some.injEq] at hm
    subst hm
    rfl

/-- A quiescent state stays quiescent and never gains a capture-start
event, under any command schedule. -/
theorem quiescent_run (s : CpuState) (cmds : List Cmd) (h : Quiescent s) :
    Quiescent (run s cmds) ∧
    ∀ m, Event.captureStart m ∈ (run s cmds).trace →
      Event.captureStart m ∈ s.trace := by
  induction cmds generalizing s with
  | nil => exact ⟨h, fun _ hm => hm⟩
  | cons c cs ih =>
    obtain ⟨hr, hp, hf⟩ := h
    have hstep : Quiescent (step s c) ∧
        ∀ m, Event.captureStart m ∈ (step s c).trace →
          Event.captureStart m ∈ s.trace := by
      cases c with
      | resolveCapture ok =>
        simp only [step, hf]
        exact ⟨⟨hr, hp, hf⟩, fun _ hm => hm⟩
      | runImmediate =>
        simp only [step, hp, if_false]
        exact ⟨⟨hr, hp, hf⟩, fun _ hm => hm⟩
      | stopCpu =>
        refine ⟨⟨rfl, hp, hf⟩, ?_⟩
        intro m hm
        simp only [step, List.mem_append] at hm
        rcases hm with hm | hm
        · exact hm
        · simp at hm
    obtain ⟨hq, hmono⟩ := ih (step s c) hstep.1
    exact ⟨hq, fun m hm => hstep.2 m (hmono m hm)⟩

/-- Resolving an in-flight capture while the flag is down completes the
round and uploads, but queues nothing. -/
theorem step_resolve_stopped (s : CpuState) (n : Nat) (b : Bool)
    (hf : s.inFlight = some n) (hr : s.isCpuProfilingRunning = false) :
    step s (Cmd.resolveCapture b) =
      { s with inFlight := none,
               trace := s.trace ++
                 [Event.captureEnd n, Event.uploadAttempt n] } := by
  unfold step
  rw [hf]
  simp [hr]

/-- Resolving an in-flight capture while the flag is up completes the
round, queues the next round, and uploads. -/
theorem step_resolve_running (s : CpuState) (n : Nat) (b : Bool)
    (hf : s.inFlight = some n) (hr : s.isCpuProfilingRunning = true) :
    step s (Cmd.resolveCapture b) =
      { s with inFlight := none, pendingImmediate := true,
               trace := s.trace ++ [Event.captureEnd n, Event.scheduleNext n,
                 Event.uploadAttempt n] } := by
  unfold step
  rw [hf]
  simp [hr]

/-- C1 (counterexample): in the end-to-end scenario (server
http://example:4040, name svc, tags env=prod, autoStart false; capture
stubbed to a fixed fake profile, transport stubbed), the upload request
URL is not the URL the spec asserts, whose name segment is svc: `init`
never assigns the global name, so the URL keeps the default name. -/
theorem scenario_url_ne_spec :
    (uploadProfile (fun _ : Nat => [1, 2, 3]) scenarioConfig
        (fun _ => PromiseResult.resolved ()) 0).1.url ≠
      "http://example:4040/ingest?name=svc\x7benv=prod\x7d&sampleRate=100" := by
  decide

/-- C1 (amended): in the same scenario, the single CPU round issues its
upload request to http://example:4040/ingest?name=nodejs(env=prod with
braces)&sampleRate=100 — the name segment is the pre-existing default
nodejs, not the configured svc — and the request body holds the encoded
bytes of the fake profile unchanged. -/
theorem scenario_upload_request {P : Type} (encode : P → List Nat)
    (net : UploadRequest → PromiseResult Unit) (p : P) :
    (uploadProfile encode scenarioConfig net p).1.url =
      "http://example:4040/ingest?name=nodejs\x7benv=prod\x7d&sampleRate=100" ∧
    (uploadProfile encode scenarioConfig net p).1.body = encode p :=
  ⟨(by decide :
      uploadUrl scenarioConfig =
        "http://example:4040/ingest?name=nodejs\x7benv=prod\x7d&sampleRate=100"),
   rfl⟩

/-- C2: `init` never assigns the global application name: for every
argument and every prior global state the name is unchanged, so from the
module-load state it stays the default nodejs, and the upload URL built
afterwards uses the pre-call name. -/
theorem init_preserves_name (c : InitArg) (g : PyroscopeConfig) :
    (init c g).name = g.name ∧
    (init c initialConfig).name = "nodejs" ∧
    uploadUrl (init c g) =
      (init c g).server ++ "/ingest?name=" ++ g.name ++ tagFragment c.tags ++
        "&sampleRate=" ++ toString SAMPLERATE :=
  ⟨rfl, rfl, rfl⟩

/-- C3: the label projection produces one label per tag whose key/value
pair is an entry of the tag mapping; every tag contributes its k=v
string to the comma-joined, brace-enclosed URL fragment, which is what
the upload URL embeds. -/
theorem tag_labels_and_fragment (tags : TagList) :
    (tagListToLabels tags).length = tags.length ∧
    (∀ l ∈ tagListToLabels tags, (l.key, l.str) ∈ tags) ∧
    (∀ k v, (k, v) ∈ tags → (k ++ "=" ++ v) ∈ tagListStrings tags) ∧
    tagFragment tags =
      "\x7b" ++ String.intercalate "," (tagListStrings tags) ++ "\x7d" ∧
    (∀ g : PyroscopeConfig, g.tags = tags →
      uploadUrl g = g.server ++ "/ingest?name=" ++ g.name ++
        tagFragment tags ++ "&sampleRate=" ++ toString SAMPLERATE) := by
  refine ⟨?_, ?_, ?_, rfl, ?_⟩
  · simp [tagListToLabels]
  · intro l hl
    simp [tagListToLabels] at hl
    obtain ⟨a, b, hab, heq⟩ := hl
    subst heq
    simpa using hab
  · intro k v hkv
    exact List.mem_map_of_mem _ hkv
  · intro g hg
    rw [← hg]
    rfl

/-- Witness for C3 at the concrete tag mapping env=prod. -/
theorem tag_labels_and_fragment_witness :
    ((Label.mk "env" "prod").key, (Label.mk "env" "prod").str) ∈
        ([("env", "prod")] : TagList) ∧
    ("env" ++ "=" ++ "prod") ∈ tagListStrings [("env", "prod")] :=
  ⟨(tag_labels_and_fragment [("env", "prod")]).2.1 (Label.mk "env" "prod")
      (by decide),
   (tag_labels_and_fragment [("env", "prod")]).2.2.1 "env" "prod" (by decide)⟩

/-- C4: starting the heap session twice without an intervening stop is a
no-op on the second call: it returns the JS value false without error,
leaves the state untouched (so no second timer is created and the heap
sampler is not re-initialized), and exactly one timer is active. -/
theorem heap_start_idempotent (t1 t2 : TagList) (s : HeapState)
    (h : s.heapProfilingTimer = none) :
    startHeapProfiling t2 (startHeapProfiling t1 s).1 =
      ((startHeapProfiling t1 s).1, some false) ∧
    (startHeapProfiling t1 s).1.activeTimers =
      s.activeTimers ++ [s.nextHandle] ∧
    (startHeapProfiling t1 s).1.samplerStarts = s.samplerStarts + 1 ∧
    (s.activeTimers = [] →
      (startHeapProfiling t1 s).1.activeTimers.length = 1) := by
  have h1 : startHeapProfiling t1 s =
      ({ heapProfilingTimer := some s.nextHandle,
         activeTimers := s.activeTimers ++ [s.nextHandle],
         samplerStarts := s.samplerStarts + 1,
         nextHandle := s.nextHandle + 1 }, none) := by
    unfold startHeapProfiling
    rw [h]
  rw [h1]
  refine ⟨rfl, rfl, rfl, ?_⟩
  intro hA
  rw [hA]
  rfl

/-- Witness for C4 at a concrete stopped heap state. -/
theorem heap_start_idempotent_witness :
    startHeapProfiling [] (startHeapProfiling [("a", "b")] ⟨none, [], 0, 0⟩).1 =
      ((startHeapProfiling [("a", "b")] ⟨none, [], 0, 0⟩).1, some false) ∧
    (startHeapProfiling [("a", "b")] ⟨none, [], 0, 0⟩).1.activeTimers.length = 1 :=
  ⟨(heap_start_idempotent [("a", "b")] [] ⟨none, [], 0, 0⟩ rfl).1,
   (heap_start_idempotent [("a", "b")] [] ⟨none, [], 0, 0⟩ rfl).2.2.2 rfl⟩

/-- C5: the upload pipeline always settles resolved (a network failure is
caught by the catch handler, never re-thrown, never retried), and the
handler classifies the three failure classes into three distinct log
shapes: non-2xx response, request sent with no response, and request
setup failure. -/
theorem upload_failures_handled {P : Type} (encode : P → List Nat)
    (g : PyroscopeConfig) (net : UploadRequest → PromiseResult Unit) (p : P) :
    (∃ logs, (uploadProfile encode g net p).2 = PromiseResult.resolved logs) ∧
    (∀ e, net (mkUploadRequest encode g p) = PromiseResult.rejected e →
      (uploadProfile encode g net p).2 =
        PromiseResult.resolved (handleError e) ∧
      (∀ d, e.response = some d → handleError e = [LogLine.receivedError d]) ∧
      (e.response = none → e.request = true →
        handleError e = [LogLine.noResponse e.message]) ∧
      (e.response = none → e.request = false →
        handleError e = [LogLine.setupError e.message])) ∧
    (∀ d m, LogLine.receivedError d ≠ LogLine.noResponse m ∧
      LogLine.receivedError d ≠ LogLine.setupError m ∧
      LogLine.noResponse d ≠ LogLine.setupError m) := by
  refine ⟨?_, ?_, ?_⟩
  · cases hnet : net (mkUploadRequest encode g p) with
    | resolved v =>
      refine ⟨[], ?_⟩
      simp [uploadProfile, pcatch, pmap, hnet]
    | rejected e =>
      refine ⟨handleError e, ?_⟩
      simp [uploadProfile, pcatch, pmap, hnet]
  · intro e he
    refine ⟨?_, ?_, ?_, ?_⟩
    · simp [uploadProfile, pcatch, pmap, he]
    · intro d hd
      simp [handleError, hd]
    · intro h1 h2
      simp [handleError, h1, h2]
    · intro h1 h2
      simp [handleError, h1, h2]
  · intro d m
    refine ⟨?_, ?_, ?_⟩ <;> simp

/-- Witness for C5: a transport that fails with no response yields a
resolved upload carrying the no-response log line. -/
theorem upload_failures_handled_witness :
    (uploadProfile (fun _ : Nat => ([] : List Nat)) initialConfig
        (fun _ => PromiseResult.rejected ⟨none, true, "boom"⟩) 0).2 =
      PromiseResult.resolved [LogLine.noResponse "boom"] := by
  have h := (upload_failures_handled (fun _ : Nat => ([] : List Nat))
      initialConfig (fun _ => PromiseResult.rejected ⟨none, true, "boom"⟩)
      0).2.1 ⟨none, true, "boom"⟩ rfl
  rw [h.1, h.2.2.1 rfl rfl]

/-- C6: under every event-loop schedule, the trace of the CPU loop
started from the module-load state is sequential: round n+1's capture
never begins before round n's capture has resolved. -/
theorem cpu_rounds_no_overlap (tags : TagList) (cmds : List Cmd) :
    seqOrdered (run (startCpuProfiling tags initialCpuState) cmds).trace :=
  (cpuInv_run _ cmds (cpuInv_start tags)).1

/-- C7: calling stop while a capture is in flight clears the flag but
does not abort the round: when the capture resolves, its completion and
upload attempt still happen, nothing further is queued, and no later
schedule can ever start another capture. -/
theorem stop_is_eventual (s : CpuState) (n : Nat) (b : Bool)
    (hf : s.inFlight = some n) (hp : s.pendingImmediate = false) :
    (step s Cmd.stopCpu).isCpuProfilingRunning = false ∧
    Event.captureEnd n ∈
      (step (step s Cmd.stopCpu) (Cmd.resolveCapture b)).trace ∧
    Event.uploadAttempt n ∈
      (step (step s Cmd.stopCpu) (Cmd.resolveCapture b)).trace ∧
    (step (step s Cmd.stopCpu) (Cmd.resolveCapture b)).pendingImmediate =
      false ∧
    (step (step s Cmd.stopCpu) (Cmd.resolveCapture b)).inFlight = none ∧
    ∀ cmds m,
      Event.captureStart m ∈
        (run (step (step s Cmd.stopCpu) (Cmd.resolveCapture b)) cmds).trace →
      Event.captureStart m ∈
        (step (step s Cmd.stopCpu) (Cmd.resolveCapture b)).trace := by
  have h1 : step s Cmd.stopCpu =
      { s with isCpuProfilingRunning := false,
               trace := s.trace ++ [Event.stopCalled] } := rfl
  have h2 := step_resolve_stopped (step s Cmd.stopCpu) n b
    (by rw [h1]; exact hf) (by rw [h1])
  refine ⟨rfl, ?_, ?_, ?_, ?_, ?_⟩
  · rw [h2, h1]
    simp
  · rw [h2, h1]
    simp
  · rw [h2, h1]
    exact hp
  · rw [h2]
  · have hq : Quiescent (step (step s Cmd.stopCpu) (Cmd.resolveCapture b)) := by
      refine ⟨?_, ?_, ?_⟩
      · rw [h2, h1]
      · rw [h2, h1]
        exact hp
      · rw [h2]
    exact fun cmds m hm => (quiescent_run _ cmds hq).2 m hm

/-- Witness for C7 from the started loop with round 0 in flight. -/
theorem stop_is_eventual_witness :
    Event.uploadAttempt 0 ∈
      (step (step (startCpuProfiling [] initialCpuState) Cmd.stopCpu)
        (Cmd.resolveCapture true)).trace :=
  (stop_is_eventual (startCpuProfiling [] initialCpuState) 0 true rfl
    rfl).2.2.1

/-- C8: when a round's capture resolves in the running state, the next
round is queued and the upload is attempted, and the step is literally
the same function of the state for every upload outcome, so an upload
failure can neither prevent the reschedule nor kill the loop. -/
theorem reschedule_independent_of_upload (s : CpuState) (n : Nat)
    (b1 b2 : Bool) (hf : s.inFlight = some n)
    (hr : s.isCpuProfilingRunning = true) :
    step s (Cmd.resolveCapture b1) = step s (Cmd.resolveCapture b2) ∧
    (step s (Cmd.resolveCapture b1)).pendingImmediate = true ∧
    Event.scheduleNext n ∈ (step s (Cmd.resolveCapture b1)).trace ∧
    Event.uploadAttempt n ∈ (step s (Cmd.resolveCapture b1)).trace := by
  have h1 := step_resolve_running s n b1 hf hr
  have h2 := step_resolve_running s n b2 hf hr
  rw [h1, h2]
  refine ⟨rfl, rfl, ?_, ?_⟩ <;> simp

/-- Witness for C8 from the started loop with round 0 in flight. -/
theorem reschedule_independent_witness :
    Event.scheduleNext 0 ∈
      (step (startCpuProfiling [] initialCpuState)
        (Cmd.resolveCapture false)).trace :=
  (reschedule_independent_of_upload (startCpuProfiling [] initialCpuState)
    0 false true rfl rfl).2.2.1

/-- C9: after `init`, the global server URL is the supplied string when
it is a non-empty string, and the documented default
http://localhost:4040 when the field is absent or empty. -/
theorem init_server_or_default (c : InitArg) (g : PyroscopeConfig) :
    (∀ s, c.server = some s → s ≠ "" → (init c g).server = s) ∧
    ((c.server = none ∨ c.server = some "") →
      (init c g).server = "http://localhost:4040") := by
  constructor
  · intro s hs hne
    simp [init, orDefault, hs, hne]
  · intro h
    rcases h with h | h <;> simp [init, orDefault, h, DEFAULT_SERVER]

/-- Witness for C9 on a supplied server and on an absent server. -/
theorem init_server_or_default_witness :
    (init ⟨some "http://example:4040", "svc", none, false, []⟩
        initialConfig).server = "http://example:4040" ∧
    (init ⟨none, "svc", none, false, []⟩ initialConfig).server =
      "http://localhost:4040" :=
  ⟨(init_server_or_default _ _).1 "http://example:4040" rfl (by decide),
   (init_server_or_default _ _).2 (Or.inl rfl)⟩

/-- C10: the tag-list parameters of `startCpuProfiling` and
`startHeapProfiling` are never read — both functions are the same for
any two argument values — and the tag fragment of the upload URL comes
from the global config's tag mapping. -/
theorem start_tags_parameter_unused (t1 t2 : TagList) (cs : CpuState)
    (hs : HeapState) (g : PyroscopeConfig) :
    startCpuProfiling t1 cs = startCpuProfiling t2 cs ∧
    startHeapProfiling t1 hs = startHeapProfiling t2 hs ∧
    uploadUrl g = g.server ++ "/ingest?name=" ++ g.name ++
      tagFragment g.tags ++ "&sampleRate=" ++ toString SAMPLERATE :=
  ⟨rfl, rfl, rfl⟩

end Pyroscope
